import Mathlib

/-!
Verification of the access-control subsystem of the financial-data server:
a shallow embedding of the sliding-window rate limiter, the encrypted token
store, the OAuth client (PKCE generation and the authorization-code
exchange), and the bearer-token auth middleware, with theorems settling the
specification claims about them.

Machine integers are modelled as `Int`/`Nat` (JS numbers in the relevant
code paths are integral millisecond/second timestamps and counters, far
from 2^53, so no overflow modelling is needed).  Stateful Redis calls
become explicit state passing; fallible operations return `Option` or
`Except`.  External cryptographic primitives (AES-256-CBC, SHA-256, the
JWT verifier) and JSON (de)serialization are parameters of the embedded
functions; everything the repository itself computes (key formats, the
IV/colon ciphertext framing, hex encoding, base64url encoding, the Lua
window script, TTL arithmetic, scope logic, header parsing) is embedded
concretely.
-/

namespace RateLimiter

/-- The result shape returned by `RateLimiter.checkRateLimit`
(`rate-limiter.ts`, interface `RateLimitResult`). -/
structure RLResult where
  allowed : Bool
  limit : Int
  current : Int
  remaining : Int
  resetTime : Int
  retryAfter : Option Int
deriving DecidableEq, Repr

/-- `Math.ceil(a / b)` for integral `a` and positive integral `b`
(used for `retryAfter` and the key TTL in the Lua script). -/
def jsCeilDiv (a b : Int) : Int := (a + b - 1) / b

/-- The body of the Lua script sent to Redis by `checkRateLimit`
(`rate-limiter.ts` lines 66-90), acting on the sorted set stored at the
rate-limit key.  Redis sorted-set members are unique, and the script uses
the timestamp `now` as both member and score (`ZADD key now now`), so the
window is a `Finset Int` of timestamps.  `ZREMRANGEBYSCORE key -inf ws`
removes every element with score `≤ ws`; `ZCARD` counts; `ZRANGE key 0 0`
takes the minimum.  Returns the 4-tuple `(allowed, current, remaining,
resetTime)` of the script together with the new window contents. -/
def luaWindowScript (maxRequests windowMs now : Int) (w : Finset Int) :
    (Int × Int × Int × Int) × Finset Int :=
  let windowStart := now - windowMs
  let w1 := w.filter (fun t => ¬ t ≤ windowStart)
  let current : Int := (w1.card : Int)
  if current < maxRequests then
    ((1, current + 1, maxRequests - current - 1, now + windowMs), insert now w1)
  else
    let reset : Int :=
      match w1.min with
      | (o : Int) => o + windowMs
      | ⊤ => now + windowMs
    ((0, current, 0, reset), w1)

/-- `RateLimiter.checkRateLimit` (`rate-limiter.ts` lines 53-142): the key's
window state is threaded explicitly; `.error ()` stands for the backing
Redis store being unreachable (the `await this.redis.eval` call throwing),
in which case the `catch` block fails open.  On success the script's tuple
is mapped into an `RLResult` exactly as in the source, including the
falsy-`resetTime` default and the `retryAfter` guard. -/
def checkRateLimit (maxRequests windowMs now : Int)
    (st : Except Unit (Finset Int)) : RLResult × Except Unit (Finset Int) :=
  match st with
  | .error e =>
    ({ allowed := true, limit := maxRequests, current := 0,
       remaining := maxRequests, resetTime := now + windowMs,
       retryAfter := none }, .error e)
  | .ok w =>
    let r := luaWindowScript maxRequests windowMs now w
    let allowed := r.1.1
    let current := r.1.2.1
    let remaining := r.1.2.2.1
    let resetTime := r.1.2.2.2
    ({ allowed := allowed = 1, limit := maxRequests,
       current := current,
       remaining := remaining,
       resetTime := if resetTime = 0 then now + windowMs else resetTime,
       retryAfter :=
         if allowed ≠ 1 ∧ resetTime ≠ 0 then
           some (jsCeilDiv (resetTime - now) 1000)
         else none }, .ok r.2)

/-- `N` successive `checkRateLimit` calls on the same key (Redis executes
the atomic script serially, so any interleaving of concurrent calls is some
serialization); `times` is the `Date.now()` value each call observed.
Returns the list of `allowed` flags in order, with the final window. -/
def runChecks (maxRequests windowMs : Int) :
    List Int → Except Unit (Finset Int) → List Bool × Except Unit (Finset Int)
  | [], st => ([], st)
  | t :: ts, st =>
    let r := checkRateLimit maxRequests windowMs t st
    let rest := runChecks maxRequests windowMs ts r.2
    (r.1.allowed :: rest.1, rest.2)

/-- `RateLimiter.getRateLimitStatus` (`rate-limiter.ts` lines 267-306):
prunes expired entries with `ZREMRANGEBYSCORE`, counts with `ZCARD`, never
inserts.  On a store error it returns the default status and leaves the
state untouched. -/
def getRateLimitStatus (maxRequests windowMs now : Int)
    (st : Except Unit (Finset Int)) : RLResult × Except Unit (Finset Int) :=
  match st with
  | .error e =>
    ({ allowed := true, limit := maxRequests, current := 0,
       remaining := maxRequests, resetTime := now + windowMs,
       retryAfter := none }, .error e)
  | .ok w =>
    let w1 := w.filter (fun t => ¬ t ≤ now - windowMs)
    let current : Int := (w1.card : Int)
    let remaining := max 0 (maxRequests - current)
    ({ allowed := remaining > 0, limit := maxRequests, current := current,
       remaining := remaining, resetTime := now + windowMs,
       retryAfter := none }, .ok w1)

end RateLimiter

namespace TokenStore

/-- Character-list strings (the token store manipulates raw string data:
hex framing, colon splitting), written as `List Char`. -/
abbrev Str := List Char

/-- The validated shape persisted by the token store
(`token-storage.ts`, `StoredTokenSchema`). -/
structure StoredToken where
  accessToken : Str
  refreshToken : Option Str
  tokenType : Str
  expiresAt : Nat
  scopes : List Str
  clientId : Str
  userId : Str
deriving DecidableEq, Repr

/-- The fields of the OAuth `AccessToken` consumed by `storeToken`
(`access_token`, `refresh_token?`, `token_type`). -/
structure AccessTokenJs where
  access_token : Str
  refresh_token : Option Str
  token_type : Str
deriving DecidableEq, Repr

/-- The fields of the `AuthContext` consumed by `storeToken`
(`expiresAt`, `scopes`); times are epoch seconds. -/
structure AuthContextJs where
  expiresAt : Nat
  scopes : List Str
deriving DecidableEq, Repr

/-- Lowercase hex digit for a value below 16 (`Buffer.toString('hex')`). -/
def hexDigit (n : Nat) : Char :=
  "0123456789abcdef".data.getD n '0'

/-- Hex rendering of a byte list, two lowercase digits per byte
(`iv.toString('hex')`). -/
def hexOfBytes (bytes : List Nat) : Str :=
  bytes.flatMap (fun b => [hexDigit (b / 16), hexDigit (b % 16)])

/-- `String.prototype.split(sep)` for a single-character separator:
`splitChar ':' "a:b"` is `["a", "b"]`, and a string with no separator
yields the one-element list. -/
def splitChar (sep : Char) : Str → List Str
  | [] => [[]]
  | c :: cs =>
    if c = sep then [] :: splitChar sep cs
    else
      match splitChar sep cs with
      | [] => [[c]]
      | p :: ps => (c :: p) :: ps

/-- `TokenStorage.encrypt` (`token-storage.ts` lines 214-223): draws the
16-byte `iv`, runs the AES-256-CBC cipher (the external primitive `enc`,
keyed with the process-wide encryption key and producing hex output), and
returns `iv.toString('hex') + ':' + encrypted`.  Note the source calls
`crypto.createCipher`, which derives the cipher solely from the key, so
`enc` does not receive `iv`: the IV participates only in the prefix. -/
def encrypt (enc : Str → Str) (iv : List Nat) (text : Str) : Str :=
  hexOfBytes iv ++ ':' :: enc text

/-- `TokenStorage.decrypt` (`token-storage.ts` lines 228-242): splits on
`:`, rejects any shape other than two non-empty parts, then runs the
decipher (`dec`, which yields `none` when the external decipher throws)
on the second part only — the IV segment is discarded.  A `none` result
models the source throwing. -/
def decrypt (dec : Str → Option Str) (encryptedData : Str) : Option Str :=
  match splitChar ':' encryptedData with
  | [p0, p1] => if p0 = [] ∨ p1 = [] then none else dec p1
  | _ => none

/-- `TokenStorage.generateAccessTokenKey`:
`auth:access_token:clientId:userId`. -/
def generateAccessTokenKey (userId clientId : Str) : Str :=
  ['a','u','t','h',':','a','c','c','e','s','s','_','t','o','k','e','n',':']
    ++ clientId ++ ':' :: userId

/-- `TokenStorage.generateRefreshTokenKey`:
`auth:refresh_token:clientId:userId`. -/
def generateRefreshTokenKey (userId clientId : Str) : Str :=
  ['a','u','t','h',':','r','e','f','r','e','s','h','_','t','o','k','e','n',':']
    ++ clientId ++ ':' :: userId

/-- The Redis keyspace: each key maps to an absolute expiry time (epoch
seconds, set by `setEx` as write-time + TTL) and a stored string value. -/
abbrev RStore := Str → Option (Nat × Str)

/-- `redis.get` at time `now`: a key whose TTL has elapsed is absent. -/
def redisGet (now : Nat) (st : RStore) (k : Str) : Option Str :=
  match st k with
  | some (e, v) => if now < e then some v else none
  | none => none

/-- `redis.setEx key ttl v` at time `now` (functional store update). -/
def redisSetEx (now : Nat) (st : RStore) (k : Str) (ttl : Nat) (v : Str) : RStore :=
  fun k' => if k' = k then some (now + ttl, v) else st k'

/-- `redis.del k` (functional store update). -/
def redisDel (st : RStore) (k : Str) : RStore :=
  fun k' => if k' = k then none else st k'

/-- The `StoredToken` record assembled by `storeToken` from the OAuth
access token and the auth context (`token-storage.ts` lines 47-55). -/
def mkStoredToken (userId clientId : Str) (accessToken : AccessTokenJs)
    (authContext : AuthContextJs) : StoredToken :=
  { accessToken := accessToken.access_token
    refreshToken := accessToken.refresh_token
    tokenType := accessToken.token_type
    expiresAt := authContext.expiresAt
    scopes := authContext.scopes
    clientId := clientId
    userId := userId }

/-- `TokenStorage.storeToken` (`token-storage.ts` lines 40-90): serializes
the record (`stringify` models `JSON.stringify`), encrypts it with a fresh
`iv`, computes `ttlSeconds = max(60, expiresAt - now)`, writes the blob
under the access key, and — when a refresh token is present — writes the
same blob under the refresh key with TTL extended by 24h (86400 s). -/
def storeToken (enc : Str → Str) (stringify : StoredToken → Str) (iv : List Nat)
    (now : Nat) (st : RStore) (userId clientId : Str)
    (accessToken : AccessTokenJs) (authContext : AuthContextJs) : RStore :=
  let validatedToken := mkStoredToken userId clientId accessToken authContext
  let encryptedData := encrypt enc iv (stringify validatedToken)
  let ttlSeconds := max 60 (authContext.expiresAt - now)
  let st1 := redisSetEx now st (generateAccessTokenKey userId clientId) ttlSeconds encryptedData
  match accessToken.refresh_token with
  | some _ =>
    redisSetEx now st1 (generateRefreshTokenKey userId clientId)
      (ttlSeconds + 24 * 60 * 60) encryptedData
  | none => st1

/-- `TokenStorage.deleteToken` (`token-storage.ts` lines 154-170):
deletes both the access and the refresh key. -/
def deleteToken (st : RStore) (userId clientId : Str) : RStore :=
  redisDel (redisDel st (generateAccessTokenKey userId clientId))
    (generateRefreshTokenKey userId clientId)

/-- `TokenStorage.getToken` (`token-storage.ts` lines 95-130): reads the
access-key blob, decrypts (`dec` is the external decipher), parses and
schema-validates (`parse` models `JSON.parse` + `StoredTokenSchema.parse`,
`none` when either throws), and rejects records whose embedded `expiresAt`
has passed, deleting them.  Every failure path — absent key, decryption
error, validation error, even a failing delete — is inside the source's
`try`/`catch` which returns `null`, so the model is total and returns
`none` there: `getToken` never raises. -/
def getToken (dec : Str → Option Str) (parse : Str → Option StoredToken)
    (now : Nat) (st : RStore) (userId clientId : Str) :
    Option StoredToken × RStore :=
  match redisGet now st (generateAccessTokenKey userId clientId) with
  | none => (none, st)
  | some encryptedData =>
    match decrypt dec encryptedData with
    | none => (none, st)
    | some decryptedData =>
      match parse decryptedData with
      | none => (none, st)
      | some storedToken =>
        if storedToken.expiresAt ≤ now then
          (none, deleteToken st userId clientId)
        else
          (some storedToken, st)

end TokenStore

namespace OAuthClient

/-- The configuration fields of `OAuthConfig` used by the modelled
operations (`types/auth.ts`, `OAuthConfigSchema`). -/
structure OAuthConfigJs where
  clientId : String
  clientSecret : String
  redirectUri : String
deriving DecidableEq, Repr

/-- A parsed token-endpoint success response
(`types/auth.ts`, `AccessTokenSchema`). -/
structure AccessTokenResp where
  access_token : String
  token_type : String
  expires_in : Nat
  refresh_token : Option String
  scope : Option String
deriving DecidableEq, Repr

/-- The form body POSTed to the token endpoint
(`types/auth.ts`, `TokenRequestSchema`). -/
structure TokenRequestJs where
  grant_type : String
  code : Option String
  redirect_uri : Option String
  client_id : String
  code_verifier : Option String
  refresh_token : Option String
deriving DecidableEq, Repr

/-- What the token endpoint did when (and if) it was called: a parsed
success body, an HTTP error response carrying the parsed OAuth error
envelope, or a transport failure. -/
inductive PostOutcome where
  | success (tokenData : AccessTokenResp)
  | httpError (error errorDescription : String)
  | transportError
deriving DecidableEq, Repr

/-- `OAuthClient.exchangeCodeForToken` (`oauth-client.ts` lines 100-155).
The returned `Bool` records whether the token-endpoint POST was performed.
The source builds the request, POSTs it, and maps the three outcomes
through its `catch` clauses; the `state` argument is used only in a debug
log line — no comparison with any stored PKCE state occurs anywhere in the
function, and `SecurityError` is never raised. -/
def exchangeCodeForToken (oauthConfig : OAuthConfigJs)
    (code codeVerifier state : String)
    (post : TokenRequestJs → PostOutcome) : Bool × Except String AccessTokenResp :=
  let tokenRequest : TokenRequestJs :=
    { grant_type := "authorization_code"
      code := some code
      redirect_uri := some oauthConfig.redirectUri
      client_id := oauthConfig.clientId
      code_verifier := some codeVerifier
      refresh_token := none }
  match post tokenRequest with
  | .success tokenData => (true, .ok tokenData)
  | .httpError e d => (true, .error ("OAuth error: " ++ e ++ " - " ++ d))
  | .transportError => (true, .error "Failed to exchange authorization code for token")

/-- The base64url alphabet after the source's `+ → -`, `/ → _`
substitutions (`OAuthClient.base64URLEncode`, `oauth-client.ts` 269-275). -/
def b64Chars : List Char :=
  "ABCDEFGHIJKLMNOPQRSTUVWXYZabcdefghijklmnopqrstuvwxyz0123456789-_".data

/-- The character for one 6-bit group. -/
def sextetChar (n : Nat) : Char := b64Chars.getD n 'A'

/-- Position of a character in the base64url alphabet (left inverse of
`sextetChar` on values below 64, used to prove encoding injectivity). -/
def sextetCharInv (c : Char) : Nat := b64Chars.findIdx (fun x => x = c)

/-- The 6-bit groups of base64 encoding, without padding (the source
strips every `=`): 3 bytes become 4 sextets; a final 1- or 2-byte group
becomes 2 or 3 sextets with zero-filled low bits. -/
def b64Sextets : List Nat → List Nat
  | [] => []
  | [b1] => [b1 / 4, b1 % 4 * 16]
  | [b1, b2] => [b1 / 4, b1 % 4 * 16 + b2 / 16, b2 % 16 * 4]
  | b1 :: b2 :: b3 :: rest =>
    b1 / 4 :: (b1 % 4 * 16 + b2 / 16) :: (b2 % 16 * 4 + b3 / 64) :: b3 % 64
      :: b64Sextets rest

/-- Byte groups recovered from 6-bit groups (decoder, used only to prove
that the encoding is injective; the source never decodes). -/
def b64Unsextets : List Nat → List Nat
  | [] => []
  | [_] => []
  | [s1, s2] => [s1 * 4 + s2 / 16]
  | [s1, s2, s3] => [s1 * 4 + s2 / 16, s2 % 16 * 16 + s3 / 4]
  | s1 :: s2 :: s3 :: s4 :: rest =>
    (s1 * 4 + s2 / 16) :: (s2 % 16 * 16 + s3 / 4) :: (s3 % 4 * 64 + s4)
      :: b64Unsextets rest

/-- `OAuthClient.base64URLEncode` (`oauth-client.ts` lines 269-275):
base64 over the byte list, `+ → -`, `/ → _`, `=` stripped. -/
def base64URLEncode (bytes : List Nat) : List Char :=
  (b64Sextets bytes).map sextetChar

/-- The PKCE parameter record (`types/auth.ts`, `PKCESchema`). -/
structure PKCE where
  code_verifier : List Char
  code_challenge : List Char
  code_challenge_method : String
  state : List Char
deriving DecidableEq, Repr

/-- `PKCESchema.parse` (`types/auth.ts` lines 72-77): verifier and
challenge lengths in [43,128], method `S256` or `plain`, non-empty state;
an out-of-range value throws, modelled as `none`. -/
def pkceSchemaParse (p : PKCE) : Option PKCE :=
  if (43 ≤ p.code_verifier.length ∧ p.code_verifier.length ≤ 128)
      ∧ (43 ≤ p.code_challenge.length ∧ p.code_challenge.length ≤ 128)
      ∧ (p.code_challenge_method = "S256" ∨ p.code_challenge_method = "plain")
      ∧ 1 ≤ p.state.length then
    some p
  else none

/-- `OAuthClient.generatePKCE` (`oauth-client.ts` lines 44-64): the
verifier is the base64url encoding of 32 random bytes (`rand32`), the
challenge is the base64url encoding of SHA-256 over the verifier's bytes
(base64url characters are ASCII, so `Char.toNat` is exactly the byte
`crypto.hash.update` consumes), the state encodes 16 random bytes
(`rand16`), and the result passes through `PKCESchema.parse`. -/
def generatePKCE (sha256 : List Nat → List Nat) (rand32 rand16 : List Nat) :
    Option PKCE :=
  let codeVerifier := base64URLEncode rand32
  let codeChallenge := base64URLEncode (sha256 (codeVerifier.map Char.toNat))
  let state := base64URLEncode rand16
  pkceSchemaParse
    { code_verifier := codeVerifier
      code_challenge := codeChallenge
      code_challenge_method := "S256"
      state := state }

end OAuthClient

namespace AuthMW

/-- The designated admin scope (`types/auth.ts`, `FinancialScopes.ADMIN`). -/
def adminScope : String := "admin:financial-data"

/-- The designated read-all scope
(`types/auth.ts`, `FinancialScopes.READ_ALL`). -/
def readAllScope : String := "read:financial-data"

/-- `AuthMiddleware.authorize` (`rate-limiter.ts` source lines 403-430,
class `AuthMiddleware`): empty requirement authorizes; the admin scope
authorizes everything; the read-all scope authorizes all-`read:`
requirements; otherwise every required scope must be held
(`requiredScopes.every(scope => context.scopes.includes(scope))`). -/
def authorize (scopes requiredScopes : List String) : Bool :=
  if requiredScopes = [] then true
  else if adminScope ∈ scopes then true
  else if readAllScope ∈ scopes
      ∧ (∀ s ∈ requiredScopes, s.startsWith "read:" = true) then true
  else decide (∀ s ∈ requiredScopes, s ∈ scopes)

/-- JavaScript regex `\s` (ECMA-262 WhiteSpace and LineTerminator): the
ASCII whitespace characters plus NBSP, OGHAM SPACE MARK, the U+2000-200A
spaces, the U+2028/U+2029 line separators, NARROW NBSP, MATHEMATICAL
SPACE, IDEOGRAPHIC SPACE and the BOM. -/
def isJsWs (c : Char) : Bool :=
  c = ' ' || c = '\t' || c = '\n' || c = '\r' || c = '\x0b' || c = '\x0c'
    || c = '\u00A0' || c = '\u1680'
    || ('\u2000' ≤ c && c ≤ '\u200A')
    || c = '\u2028' || c = '\u2029' || c = '\u202F' || c = '\u205F'
    || c = '\u3000' || c = '\uFEFF'

/-- JavaScript regex `.` without the `s` flag: any character except an
ECMA-262 LineTerminator (`\n`, `\r`, U+2028, U+2029). -/
def isDotChar (c : Char) : Bool :=
  !(c = '\n' || c = '\r' || c = '\u2028' || c = '\u2029')

/-- Backtracking for `\s+(.+)$` applied after the `Bearer` prefix: try the
greedy whitespace run first (`k` starts at the full run length), shrinking
it until the capture `(.+)` is non-empty and free of line terminators. -/
def tryWs (t : List Char) : Nat → Option (List Char)
  | 0 => none
  | k + 1 =>
    let rest := t.drop (k + 1)
    if rest ≠ [] ∧ rest.all isDotChar then some rest else tryWs t k

/-- The regex `^Bearer\s+(.+)$` of `extractBearerToken`
(`rate-limiter.ts` source line 490): a case-sensitive `Bearer` prefix,
one or more whitespace characters, and a non-empty captured token. -/
def bearerRegexMatch : List Char → Option (List Char)
  | 'B' :: 'e' :: 'a' :: 'r' :: 'e' :: 'r' :: t =>
    tryWs t (t.takeWhile isJsWs).length
  | _ => none

/-- Exact-key lookup in the header record (`headers.authorization` is a
plain property access on a `Record<string, string>`). -/
def lookupHeader (headers : List (String × String)) (k : String) : Option String :=
  (headers.find? (fun p => p.1 = k)).map (fun p => p.2)

/-- JavaScript `a || b` on possibly-absent strings: an empty string is
falsy and falls through. -/
def jsOrString (a b : Option String) : Option String :=
  match a with
  | some v => if v = "" then b else some v
  | none => b

/-- `AuthMiddleware.extractBearerToken` (`rate-limiter.ts` source lines
483-492): `headers.authorization || headers.Authorization` — only those
two exact spellings are consulted — then `!authHeader` short-circuits, and
the `Bearer` regex produces the captured group or `null`. -/
def extractBearerToken (headers : List (String × String)) : Option String :=
  match jsOrString (lookupHeader headers "authorization")
      (lookupHeader headers "Authorization") with
  | none => none
  | some authHeader =>
    if authHeader = "" then none
    else (bearerRegexMatch authHeader.data).map (fun cs => String.mk cs)

/-- ASCII lowercasing for case-insensitive header-name comparison. -/
def lowerChar (c : Char) : Char :=
  if 'A' ≤ c ∧ c ≤ 'Z' then Char.ofNat (c.toNat + 32) else c

/-- Modelled from the spec: the extraction the specification sentence
describes — a case-insensitive header-name lookup and a case-sensitive
`Bearer` prefix followed by exactly one space and a non-empty token (first
token character not itself whitespace).  Used only to compare the
specified behaviour with `extractBearerToken` above. -/
def specExtractBearerToken (headers : List (String × String)) : Option String :=
  match (headers.find? (fun p => p.1.data.map lowerChar = "authorization".data)).map
      (fun p => p.2) with
  | none => none
  | some v =>
    match v.data with
    | 'B' :: 'e' :: 'a' :: 'r' :: 'e' :: 'r' :: ' ' :: c :: cs =>
      if isJsWs c then none else some (String.mk (c :: cs))
    | _ => none

/-- The `AuthenticationResult` shape (`success`, optional `error`)
returned by `AuthMiddleware.authenticate`. -/
structure AuthenticationResult where
  success : Bool
  errMsg : Option String
deriving DecidableEq, Repr

/-- `AuthMiddleware.authenticate` (`rate-limiter.ts` source lines
373-398): a missing or non-matching header yields the fixed failure reason
string; otherwise the JWT is validated (`validateJWT` is the external
verifier, whose thrown message the `catch` turns into the failure
reason). -/
def authenticate (validateJWT : String → Except String Unit)
    (headers : List (String × String)) : AuthenticationResult :=
  match extractBearerToken headers with
  | none => { success := false, errMsg := some "Missing or invalid Authorization header" }
  | some token =>
    match validateJWT token with
    | .ok _ => { success := true, errMsg := none }
    | .error e => { success := false, errMsg := some e }

end AuthMW

namespace RateLimiter

/-- Pruning at an earlier instant never changes what pruning at a later
instant (same window width) leaves: the status query's `ZREMRANGEBYSCORE`
only removes entries every later check would remove anyway. -/
theorem filter_window_stable (windowMs now1 now2 : Int) (h : now1 ≤ now2)
    (w : Finset Int) :
    (w.filter fun t => ¬ t ≤ now1 - windowMs).filter (fun t => ¬ t ≤ now2 - windowMs)
      = w.filter (fun t => ¬ t ≤ now2 - windowMs) := by
  rw [Finset.filter_filter]
  apply Finset.filter_congr
  intro x _
  constructor
  · intro hx; exact hx.2
  · intro hx; exact ⟨by omega, hx⟩

end RateLimiter

/-- C1: the claim states that for N concurrent `checkRateLimit` calls on
one key against an empty window with `maxRequests = K < N`, exactly K
return `allowed = true`, and at most `maxRequests` admissions ever occur
per window.  The code violates this: the Lua script stores the request
timestamp as the sorted-set *member* (`ZADD key now now`), so concurrent
calls that observe the same `Date.now()` millisecond collapse into a
single member and the occupancy count stops growing.  Concretely, three
serialized calls (K = 2 < N = 3) all at timestamp 1000 are all admitted —
`[true, true, true]`, three admissions against a limit of two — and the
final window holds the single member 1000. -/
theorem c1_sameMillisecond_overadmission :
    (RateLimiter.runChecks 2 60000 [1000, 1000, 1000] (.ok ∅)).1 = [true, true, true]
    ∧ (RateLimiter.runChecks 2 60000 [1000, 1000, 1000] (.ok ∅)).1.count true = 3
    ∧ (RateLimiter.runChecks 2 60000 [1000, 1000, 1000] (.ok ∅)).2.toOption
        = some ({1000} : Finset Int) := by
  refine ⟨by decide, by decide, by decide⟩

/-- C8: when the backing counter store is unreachable (the Redis `eval`
throws, modelled by the `.error` state), `checkRateLimit` fails open: it
returns `allowed = true` with `current = 0` and `remaining = maxRequests`,
and neither rejects nor propagates the store error to the caller. -/
theorem c8_fail_open (maxRequests windowMs now : Int) :
    RateLimiter.checkRateLimit maxRequests windowMs now (.error ()) =
      ({ allowed := true, limit := maxRequests, current := 0,
         remaining := maxRequests, resetTime := now + windowMs,
         retryAfter := none }, .error ()) := rfl

/-- C10: `getRateLimitStatus` never adds a timestamp: it leaves exactly
the pruned window (a subset of the original), and a subsequent
`checkRateLimit` at any later instant returns the same result — admission
decision, counts and final state — as if the status query had never
happened. -/
theorem c10_status_does_not_admit (maxRequests windowMs now1 now2 : Int)
    (w : Finset Int) (h : now1 ≤ now2) :
    ((RateLimiter.getRateLimitStatus maxRequests windowMs now1 (.ok w)).2
        = .ok (w.filter fun t => ¬ t ≤ now1 - windowMs))
    ∧ (w.filter fun t => ¬ t ≤ now1 - windowMs) ⊆ w
    ∧ RateLimiter.checkRateLimit maxRequests windowMs now2
        ((RateLimiter.getRateLimitStatus maxRequests windowMs now1 (.ok w)).2)
      = RateLimiter.checkRateLimit maxRequests windowMs now2 (.ok w) := by
  refine ⟨rfl, Finset.filter_subset _ _, ?_⟩
  show RateLimiter.checkRateLimit maxRequests windowMs now2
      (.ok (w.filter fun t => ¬ t ≤ now1 - windowMs)) = _
  have hs : RateLimiter.luaWindowScript maxRequests windowMs now2
      (w.filter fun t => ¬ t ≤ now1 - windowMs)
      = RateLimiter.luaWindowScript maxRequests windowMs now2 w := by
    simp only [RateLimiter.luaWindowScript]
    rw [RateLimiter.filter_window_stable windowMs now1 now2 h w]
  simp only [RateLimiter.checkRateLimit]
  rw [hs]

/-- C10 witness: the frame property of `getRateLimitStatus` instantiated
at a concrete window and pair of instants. -/
theorem c10_status_does_not_admit_witness :
    ((RateLimiter.getRateLimitStatus 5 100 150 (.ok ({10, 120} : Finset Int))).2
        = .ok (({10, 120} : Finset Int).filter fun t => ¬ t ≤ 150 - 100))
    ∧ (({10, 120} : Finset Int).filter fun t => ¬ t ≤ 150 - 100) ⊆ ({10, 120} : Finset Int)
    ∧ RateLimiter.checkRateLimit 5 100 200
        ((RateLimiter.getRateLimitStatus 5 100 150 (.ok ({10, 120} : Finset Int))).2)
      = RateLimiter.checkRateLimit 5 100 200 (.ok ({10, 120} : Finset Int)) :=
  c10_status_does_not_admit 5 100 150 200 {10, 120} (by decide)

namespace TokenStore

/-- `List.getD` stays inside the listed characters (or the default). -/
theorem list_getD_ne {x d : Char} (hd : d ≠ x) :
    ∀ (l : List Char) (n : Nat), (∀ c ∈ l, c ≠ x) → l.getD n d ≠ x
  | [], n, _ => by simpa [List.getD] using hd
  | c :: cs, 0, h => by simpa using h c (by simp)
  | c :: cs, n + 1, h => by
    simpa [List.getD] using
      list_getD_ne hd cs n (fun a ha => h a (by simp [ha]))

/-- Hex digits are never the colon separator. -/
theorem hexDigit_ne_colon (n : Nat) : hexDigit n ≠ ':' :=
  list_getD_ne (by decide) _ n (by decide)

/-- The hex-rendered IV contains no colon, so the `:` written by `encrypt`
is the first colon of the ciphertext whenever the body is colon-free. -/
theorem colon_not_mem_hexOfBytes (bytes : List Nat) : ':' ∉ hexOfBytes bytes := by
  intro h
  simp only [hexOfBytes, List.mem_flatMap, List.mem_cons, List.not_mem_nil,
    or_false] at h
  obtain ⟨b, _, hb⟩ := h
  rcases hb with hb | hb
  · exact hexDigit_ne_colon _ hb.symm
  · exact hexDigit_ne_colon _ hb.symm

/-- A nonempty IV renders to a nonempty hex string. -/
theorem hexOfBytes_ne_nil {iv : List Nat} (h : iv ≠ []) : hexOfBytes iv ≠ [] := by
  cases iv with
  | nil => exact absurd rfl h
  | cons b bs => simp [hexOfBytes]

/-- Splitting a separator-free string returns it whole. -/
theorem splitChar_of_not_mem (sep : Char) :
    ∀ (cs : Str), sep ∉ cs → splitChar sep cs = [cs]
  | [], _ => rfl
  | c :: cs, h => by
    have hc : ¬ c = sep := fun e => h (by simp [e])
    have ih := splitChar_of_not_mem sep cs (fun hm => h (List.mem_cons_of_mem _ hm))
    simp [splitChar, hc, ih]

/-- Splitting at the first separator occurrence peels off the prefix. -/
theorem splitChar_append (sep : Char) :
    ∀ (a b : Str), sep ∉ a → splitChar sep (a ++ sep :: b) = a :: splitChar sep b
  | [], b, _ => by simp [splitChar]
  | c :: a, b, h => by
    have hc : ¬ c = sep := fun e => h (by simp [e])
    have ih := splitChar_append sep a b (fun hm => h (List.mem_cons_of_mem _ hm))
    simp [splitChar, hc, ih]

/-- `decrypt` applied to an `encrypt` output reaches the decipher on
exactly the encrypted body, for a nonempty IV and a colon-free nonempty
body (AES hex output always is). -/
theorem decrypt_encrypt (dec : Str → Option Str) (enc : Str → Str)
    (iv : List Nat) (text : Str) (hiv : iv ≠ [])
    (hcol : ':' ∉ enc text) (hne : enc text ≠ []) :
    decrypt dec (encrypt enc iv text) = dec (enc text) := by
  have hsplit : splitChar ':' (encrypt enc iv text) = [hexOfBytes iv, enc text] := by
    rw [encrypt, splitChar_append ':' _ _ (colon_not_mem_hexOfBytes iv),
      splitChar_of_not_mem ':' _ hcol]
  simp [decrypt, hsplit, hexOfBytes_ne_nil hiv, hne]

/-- The access and refresh keys never collide (their literal prefixes
differ at index 5: `access_token` vs `refresh_token`). -/
theorem access_ne_refresh_key (userId clientId : Str) :
    generateAccessTokenKey userId clientId ≠ generateRefreshTokenKey userId clientId := by
  intro h
  have ha : (generateAccessTokenKey userId clientId).get? 5 = some 'a' := rfl
  have hr : (generateRefreshTokenKey userId clientId).get? 5 = some 'r' := rfl
  rw [h, hr] at ha
  exact absurd (Option.some.inj ha) (by decide)

/-- What `storeToken` leaves under the access key: the encrypted blob with
absolute expiry `now + max 60 (expiresAt - now)`, whether or not a refresh
token was also written. -/
theorem storeToken_at_access (enc : Str → Str) (stringify : StoredToken → Str)
    (iv : List Nat) (now : Nat) (st : RStore) (userId clientId : Str)
    (accessToken : AccessTokenJs) (authContext : AuthContextJs) :
    storeToken enc stringify iv now st userId clientId accessToken authContext
      (generateAccessTokenKey userId clientId)
      = some (now + max 60 (authContext.expiresAt - now),
          encrypt enc iv (stringify (mkStoredToken userId clientId accessToken authContext))) := by
  unfold storeToken
  cases h : accessToken.refresh_token with
  | none => simp [redisSetEx]
  | some r => simp [redisSetEx, access_ne_refresh_key userId clientId]

end TokenStore

/-- C2: the claim states the ciphertext body genuinely depends on the
freshly drawn IV, so two encryptions of one plaintext differ in body.  The
code violates this: `encrypt` calls `crypto.createCipher`, which never
receives the random `iv` — the cipher is derived from the key alone — so
for any two IVs the ciphertext is the same deterministic body `enc text`
behind differing hex prefixes, and `decrypt` (which discards the prefix)
returns the identical result for both. -/
theorem c2_body_independent_of_iv (enc : TokenStore.Str → TokenStore.Str)
    (dec : TokenStore.Str → Option TokenStore.Str)
    (iv1 iv2 : List Nat) (text : TokenStore.Str)
    (hiv1 : iv1 ≠ []) (hiv2 : iv2 ≠ []) :
    (TokenStore.encrypt enc iv1 text
        = TokenStore.hexOfBytes iv1 ++ ':' :: enc text
      ∧ TokenStore.encrypt enc iv2 text
        = TokenStore.hexOfBytes iv2 ++ ':' :: enc text)
    ∧ TokenStore.decrypt dec (TokenStore.encrypt enc iv1 text)
      = TokenStore.decrypt dec (TokenStore.encrypt enc iv2 text) := by
  refine ⟨⟨rfl, rfl⟩, ?_⟩
  have h1 := TokenStore.splitChar_append ':' (TokenStore.hexOfBytes iv1) (enc text)
    (TokenStore.colon_not_mem_hexOfBytes iv1)
  have h2 := TokenStore.splitChar_append ':' (TokenStore.hexOfBytes iv2) (enc text)
    (TokenStore.colon_not_mem_hexOfBytes iv2)
  simp only [TokenStore.encrypt, TokenStore.decrypt, h1, h2]
  cases hS : TokenStore.splitChar ':' (enc text) with
  | nil => rfl
  | cons p ps =>
    cases ps with
    | nil =>
      simp [TokenStore.hexOfBytes_ne_nil hiv1, TokenStore.hexOfBytes_ne_nil hiv2]
    | cons q qs => rfl

/-- C4: `getToken` is total (never raises — every failure path sits inside
the source's `try`/`catch` returning `null`) and fail-closed: an absent
blob, a failing decryption, or a failing schema validation each yield
`none` with the store untouched; a decrypted record whose embedded
`expiresAt ≤ now` yields `none` with both token keys deleted; and whenever
`getToken` does return a record, that record decrypted, parsed, and is
unexpired (`now < expiresAt`) — an expired record is never served. -/
theorem c4_getToken_fail_closed (dec : TokenStore.Str → Option TokenStore.Str)
    (parse : TokenStore.Str → Option TokenStore.StoredToken)
    (now : Nat) (st : TokenStore.RStore) (userId clientId : TokenStore.Str) :
    (TokenStore.redisGet now st (TokenStore.generateAccessTokenKey userId clientId) = none →
      TokenStore.getToken dec parse now st userId clientId = (none, st))
    ∧ (∀ blob,
        TokenStore.redisGet now st (TokenStore.generateAccessTokenKey userId clientId)
          = some blob →
        TokenStore.decrypt dec blob = none →
        TokenStore.getToken dec parse now st userId clientId = (none, st))
    ∧ (∀ blob plain,
        TokenStore.redisGet now st (TokenStore.generateAccessTokenKey userId clientId)
          = some blob →
        TokenStore.decrypt dec blob = some plain →
        parse plain = none →
        TokenStore.getToken dec parse now st userId clientId = (none, st))
    ∧ (∀ blob plain tok,
        TokenStore.redisGet now st (TokenStore.generateAccessTokenKey userId clientId)
          = some blob →
        TokenStore.decrypt dec blob = some plain →
        parse plain = some tok →
        tok.expiresAt ≤ now →
        TokenStore.getToken dec parse now st userId clientId
            = (none, TokenStore.deleteToken st userId clientId)
          ∧ TokenStore.deleteToken st userId clientId
              (TokenStore.generateAccessTokenKey userId clientId) = none
          ∧ TokenStore.deleteToken st userId clientId
              (TokenStore.generateRefreshTokenKey userId clientId) = none)
    ∧ (∀ tok, (TokenStore.getToken dec parse now st userId clientId).1 = some tok →
        now < tok.expiresAt) := by
  refine ⟨?_, ?_, ?_, ?_, ?_⟩
  · intro h; simp [TokenStore.getToken, h]
  · intro blob hg hd; simp [TokenStore.getToken, hg, hd]
  · intro blob plain hg hd hp; simp [TokenStore.getToken, hg, hd, hp]
  · intro blob plain tok hg hd hp he
    refine ⟨by simp [TokenStore.getToken, hg, hd, hp, he], ?_, ?_⟩
    · simp only [TokenStore.deleteToken, TokenStore.redisDel]
      split <;> simp
    · simp [TokenStore.deleteToken, TokenStore.redisDel]
  · intro tok h
    unfold TokenStore.getToken at h
    split at h
    · simp at h
    · split at h
      · simp at h
      · split at h
        · simp at h
        · split at h
          · simp at h
          · rename_i he
            simp at h
            subst h
            omega

/-- C4 witness: the fail-closed behaviour exercised concretely on the
expired-record branch — the stored blob decrypts and parses to a record
with `expiresAt = 50` at `now = 1000`, so `getToken` reports absent and
both keys are gone. -/
theorem c4_getToken_fail_closed_witness :
    TokenStore.getToken (fun s => some s)
        (fun s => if s = ['p'] then
          some ⟨['a'], none, ['B'], 50, [], ['c'], ['u']⟩ else none)
        1000
        (fun k => if k = TokenStore.generateAccessTokenKey ['u'] ['c'] then
          some (2000, ['0', '0', ':', 'p']) else none)
        ['u'] ['c']
      = (none, TokenStore.deleteToken
          (fun k => if k = TokenStore.generateAccessTokenKey ['u'] ['c'] then
            some (2000, ['0', '0', ':', 'p']) else none) ['u'] ['c'])
    ∧ TokenStore.deleteToken
        (fun k => if k = TokenStore.generateAccessTokenKey ['u'] ['c'] then
          some (2000, ['0', '0', ':', 'p']) else none) ['u'] ['c']
        (TokenStore.generateAccessTokenKey ['u'] ['c']) = none
    ∧ TokenStore.deleteToken
        (fun k => if k = TokenStore.generateAccessTokenKey ['u'] ['c'] then
          some (2000, ['0', '0', ':', 'p']) else none) ['u'] ['c']
        (TokenStore.generateRefreshTokenKey ['u'] ['c']) = none :=
  (c4_getToken_fail_closed (fun s => some s)
      (fun s => if s = ['p'] then
        some ⟨['a'], none, ['B'], 50, [], ['c'], ['u']⟩ else none)
      1000
      (fun k => if k = TokenStore.generateAccessTokenKey ['u'] ['c'] then
        some (2000, ['0', '0', ':', 'p']) else none)
      ['u'] ['c']).2.2.2.1
    ['0', '0', ':', 'p'] ['p'] ⟨['a'], none, ['B'], 50, [], ['c'], ['u']⟩
    (by decide) (by decide) (by decide) (by decide)

/-- C2 witness: two encryptions of the plaintext `"x"` under the distinct
IVs `0x00` and `0x01` share the identical ciphertext body and decrypt
identically. -/
theorem c2_body_independent_of_iv_witness :
    (TokenStore.encrypt (fun s => s) [0] ['x']
        = TokenStore.hexOfBytes [0] ++ ':' :: (fun (s : TokenStore.Str) => s) ['x']
      ∧ TokenStore.encrypt (fun s => s) [1] ['x']
        = TokenStore.hexOfBytes [1] ++ ':' :: (fun (s : TokenStore.Str) => s) ['x'])
    ∧ TokenStore.decrypt (fun s => some s) (TokenStore.encrypt (fun s => s) [0] ['x'])
      = TokenStore.decrypt (fun s => some s) (TokenStore.encrypt (fun s => s) [1] ['x']) :=
  c2_body_independent_of_iv (fun s => s) (fun s => some s) [0] [1] ['x']
    (by decide) (by decide)

/-- C5 counterexample: the claim as stated — any store of a record with
`expiresAt` in the future followed by a get within the storage TTL returns
the record — fails at a concrete input.  Storing at `t0 = 1000` a record
expiring at 1010 (in the future) sets the access-key TTL to the 60-second
minimum floor, so a read at `t1 = 1030` is within the TTL window
(`1030 < 1060`), yet `getToken` finds the embedded `expiresAt` passed and
returns `none` instead of the record. -/
theorem c5_ttl_floor_counterexample :
    (1000 : Nat) < 1010
    ∧ (1030 : Nat) < 1000 + max 60 (1010 - 1000)
    ∧ (TokenStore.getToken (fun s => some s)
        (fun s => if s = ['p'] then
          some ⟨['a'], none, ['B'], 1010, [], ['c'], ['u']⟩ else none)
        1030
        (TokenStore.storeToken (fun s => s) (fun _ => ['p']) [0] 1000
          (fun _ => none) ['u'] ['c'] ⟨['a'], none, ['B']⟩ ⟨1010, []⟩)
        ['u'] ['c']).1 = none :=
  ⟨by decide, by decide, by decide⟩

/-- C5 (amended): `storeToken` followed by `getToken` returns the exact
stored record — decryption inverts encryption and the serialized fields
round-trip — when the read is both within the storage TTL window *and*
before the record's embedded `expiresAt` (when at least the 60-second TTL
floor of lifetime remains at store time, the two conditions coincide); and
`getToken` returns absent after the TTL has elapsed.  The cipher pair
`enc`/`dec` and codec pair `stringify`/`parse` are the external AES-256
and JSON primitives, assumed (as the libraries guarantee) to invert on the
stored record with a colon-free nonempty cipher output. -/
theorem c5_store_get_roundtrip
    (enc : TokenStore.Str → TokenStore.Str) (dec : TokenStore.Str → Option TokenStore.Str)
    (stringify : TokenStore.StoredToken → TokenStore.Str)
    (parse : TokenStore.Str → Option TokenStore.StoredToken)
    (iv : List Nat) (st : TokenStore.RStore) (userId clientId : TokenStore.Str)
    (accessToken : TokenStore.AccessTokenJs) (authContext : TokenStore.AuthContextJs)
    (t0 t1 : Nat)
    (hiv : iv ≠ [])
    (hcol : ':' ∉ enc (stringify (TokenStore.mkStoredToken userId clientId accessToken authContext)))
    (hne : enc (stringify (TokenStore.mkStoredToken userId clientId accessToken authContext)) ≠ [])
    (hdec : dec (enc (stringify (TokenStore.mkStoredToken userId clientId accessToken authContext)))
        = some (stringify (TokenStore.mkStoredToken userId clientId accessToken authContext)))
    (hparse : parse (stringify (TokenStore.mkStoredToken userId clientId accessToken authContext))
        = some (TokenStore.mkStoredToken userId clientId accessToken authContext)) :
    (t1 < t0 + max 60 (authContext.expiresAt - t0) → t1 < authContext.expiresAt →
      (TokenStore.getToken dec parse t1
          (TokenStore.storeToken enc stringify iv t0 st userId clientId accessToken authContext)
          userId clientId).1
        = some (TokenStore.mkStoredToken userId clientId accessToken authContext))
    ∧ (t0 + max 60 (authContext.expiresAt - t0) ≤ t1 →
      (TokenStore.getToken dec parse t1
          (TokenStore.storeToken enc stringify iv t0 st userId clientId accessToken authContext)
          userId clientId).1 = none) := by
  have hsa := TokenStore.storeToken_at_access enc stringify iv t0 st userId clientId
    accessToken authContext
  constructor
  · intro hlive hfresh
    have hg : TokenStore.redisGet t1
        (TokenStore.storeToken enc stringify iv t0 st userId clientId accessToken authContext)
        (TokenStore.generateAccessTokenKey userId clientId)
        = some (TokenStore.encrypt enc iv
            (stringify (TokenStore.mkStoredToken userId clientId accessToken authContext))) := by
      simp [TokenStore.redisGet, hsa, hlive]
    have hexp : ¬ ((TokenStore.mkStoredToken userId clientId accessToken authContext).expiresAt ≤ t1) := by
      simp only [TokenStore.mkStoredToken]
      omega
    simp [TokenStore.getToken, hg,
      TokenStore.decrypt_encrypt dec enc iv _ hiv hcol hne, hdec, hparse, hexp]
  · intro helapsed
    have hg : TokenStore.redisGet t1
        (TokenStore.storeToken enc stringify iv t0 st userId clientId accessToken authContext)
        (TokenStore.generateAccessTokenKey userId clientId) = none := by
      simp [TokenStore.redisGet, hsa]
      omega
    simp [TokenStore.getToken, hg]

/-- C5 witness: the round trip exercised concretely — a record stored at
`t0 = 1000` expiring at 1100 is returned intact by a read at 1050 and
absent for a read at 1100, after the TTL elapsed. -/
theorem c5_store_get_roundtrip_witness :
    (TokenStore.getToken (fun s => some s)
        (fun s => if s = ['p'] then
          some ⟨['a'], none, ['B'], 1100, [], ['c'], ['u']⟩ else none)
        1050
        (TokenStore.storeToken (fun s => s) (fun _ => ['p']) [0] 1000
          (fun _ => none) ['u'] ['c'] ⟨['a'], none, ['B']⟩ ⟨1100, []⟩)
        ['u'] ['c']).1
      = some ⟨['a'], none, ['B'], 1100, [], ['c'], ['u']⟩
    ∧ (TokenStore.getToken (fun s => some s)
        (fun s => if s = ['p'] then
          some ⟨['a'], none, ['B'], 1100, [], ['c'], ['u']⟩ else none)
        1100
        (TokenStore.storeToken (fun s => s) (fun _ => ['p']) [0] 1000
          (fun _ => none) ['u'] ['c'] ⟨['a'], none, ['B']⟩ ⟨1100, []⟩)
        ['u'] ['c']).1 = none := by
  have h1 := c5_store_get_roundtrip (fun s => s) (fun s => some s) (fun _ => ['p'])
    (fun s => if s = ['p'] then
      some ⟨['a'], none, ['B'], 1100, [], ['c'], ['u']⟩ else none)
    [0] (fun _ => none) ['u'] ['c'] ⟨['a'], none, ['B']⟩ ⟨1100, []⟩ 1000 1050
    (by decide) (by decide) (by decide) (by decide) (by decide)
  have h2 := c5_store_get_roundtrip (fun s => s) (fun s => some s) (fun _ => ['p'])
    (fun s => if s = ['p'] then
      some ⟨['a'], none, ['B'], 1100, [], ['c'], ['u']⟩ else none)
    [0] (fun _ => none) ['u'] ['c'] ⟨['a'], none, ['B']⟩ ⟨1100, []⟩ 1000 1100
    (by decide) (by decide) (by decide) (by decide) (by decide)
  exact ⟨h1.1 (by decide) (by decide), h2.2 (by decide)⟩

/-- C3: the claim states that a state mismatch between the authorization
response and the stored PKCE state fails with `SecurityError` before the
token-endpoint exchange.  The code violates this: `exchangeCodeForToken`
never compares its `state` argument with anything (the value is only
logged), the POST to the token endpoint is always performed, and
`SecurityError` is never raised.  Concretely: the result is identical for
any two supplied states, and with the mismatching state `"stateB"` (the
stored PKCE state being `"stateA"`) the exchange is still performed and
returns the token. -/
theorem c3_state_never_checked :
    (∀ (oauthConfig : OAuthClient.OAuthConfigJs) (code codeVerifier s1 s2 : String)
        (post : OAuthClient.TokenRequestJs → OAuthClient.PostOutcome),
      OAuthClient.exchangeCodeForToken oauthConfig code codeVerifier s1 post
        = OAuthClient.exchangeCodeForToken oauthConfig code codeVerifier s2 post)
    ∧ OAuthClient.exchangeCodeForToken ⟨"client", "secret", "https://cb.example/cb"⟩
        "AUTHCODE123" "verifier" "stateB"
        (fun _ => .success ⟨"tok1", "Bearer", 3600, none, none⟩)
      = (true, .ok ⟨"tok1", "Bearer", 3600, none, none⟩)
    ∧ "stateB" ≠ "stateA" :=
  ⟨fun _ _ _ _ _ _ => rfl, rfl, by decide⟩

/-- C6: `authorize` returns true exactly when the requirement list is
empty, or the context holds the admin scope `admin:financial-data`, or it
holds the read-all scope `read:financial-data` and every required scope is
`read:`-shaped, or every required scope is present in the context's scope
set (AND semantics); and in particular the admin context authorizes
`["read:sec-filings", "read:earnings"]`. -/
theorem c6_authorize_spec :
    (∀ (scopes requiredScopes : List String),
      AuthMW.authorize scopes requiredScopes = true ↔
        (requiredScopes = []
          ∨ AuthMW.adminScope ∈ scopes
          ∨ (AuthMW.readAllScope ∈ scopes
              ∧ ∀ s ∈ requiredScopes, s.startsWith "read:" = true)
          ∨ (∀ s ∈ requiredScopes, s ∈ scopes)))
    ∧ AuthMW.authorize ["admin:financial-data"] ["read:sec-filings", "read:earnings"]
        = true := by
  constructor
  · intro scopes requiredScopes
    unfold AuthMW.authorize
    split_ifs with h1 h2 h3
    · exact iff_of_true rfl (Or.inl h1)
    · exact iff_of_true rfl (Or.inr (Or.inl h2))
    · exact iff_of_true rfl (Or.inr (Or.inr (Or.inl h3)))
    · simp only [decide_eq_true_eq]
      constructor
      · exact fun h => Or.inr (Or.inr (Or.inr h))
      · rintro (h | h | h | h)
        · exact absurd h h1
        · exact absurd h h2
        · exact absurd h h3
        · exact h
  · decide

/-- C7 counterexample: the claim as stated is false of the code at
explicit inputs, on both of its readings of the header grammar.  Header
name: the map whose only key is `AUTHORIZATION` carries a well-formed
bearer value, the case-insensitive extraction the claim describes finds
the token, yet the code finds nothing and denies with the missing-header
reason.  Separator: the value `Bearer  tok` (two spaces) is malformed
under the claim's exactly-one-space grammar — the specified extractor
rejects it — yet the code's regex `\s+` accepts it and captures `tok`
instead of failing with the fixed reason. -/
theorem c7_extraction_counterexamples :
    AuthMW.extractBearerToken [("AUTHORIZATION", "Bearer tok")] = none
    ∧ AuthMW.specExtractBearerToken [("AUTHORIZATION", "Bearer tok")] = some "tok"
    ∧ AuthMW.authenticate (fun _ => .ok ()) [("AUTHORIZATION", "Bearer tok")]
      = { success := false, errMsg := some "Missing or invalid Authorization header" }
    ∧ AuthMW.extractBearerToken [("authorization", "Bearer  tok")] = some "tok"
    ∧ AuthMW.specExtractBearerToken [("authorization", "Bearer  tok")] = none :=
  ⟨by decide, by decide, by decide, by decide, by decide⟩

namespace AuthMW

/-- `takeWhile isJsWs` consumes exactly a whitespace run that is followed
by a non-whitespace character. -/
theorem takeWhile_ws_append (c : Char) (cs : List Char) (hc : isJsWs c = false) :
    ∀ (ws : List Char), ws.all isJsWs = true →
      (ws ++ c :: cs).takeWhile isJsWs = ws
  | [], _ => by simp [List.takeWhile_cons, hc]
  | a :: ws, h => by
    have h2 := h
    simp only [List.all_cons, Bool.and_eq_true] at h2
    have ih := takeWhile_ws_append c cs hc ws h2.2
    simp [List.takeWhile_cons, h2.1, ih]

end AuthMW

/-- C7 (amended): `extractBearerToken` consults the authorization header
under exactly the two spellings `authorization` and `Authorization` (not
case-insensitively); the `Bearer` prefix is case-sensitive and is followed
by one or more whitespace characters (`\s+`, not exactly one space) and
the non-empty token; and whenever the header is absent or malformed,
`authenticate` fails with precisely the fixed reason string
`Missing or invalid Authorization header` — no internal detail reaches
the caller on that path. -/
theorem c7_bearer_extraction :
    (∀ (headers : List (String × String)) (validateJWT : String → Except String Unit),
      AuthMW.lookupHeader headers "authorization" = none →
      AuthMW.lookupHeader headers "Authorization" = none →
      AuthMW.extractBearerToken headers = none
        ∧ AuthMW.authenticate validateJWT headers
          = { success := false, errMsg := some "Missing or invalid Authorization header" })
    ∧ (∀ (ws : List Char) (c : Char) (cs : List Char), ws ≠ [] →
        ws.all AuthMW.isJsWs = true → AuthMW.isJsWs c = false →
        (c :: cs).all AuthMW.isDotChar = true →
        AuthMW.extractBearerToken
          [("authorization",
            String.mk ('B' :: 'e' :: 'a' :: 'r' :: 'e' :: 'r' :: (ws ++ c :: cs)))]
          = some (String.mk (c :: cs)))
    ∧ (∀ (headers : List (String × String)) (validateJWT : String → Except String Unit),
        AuthMW.extractBearerToken headers = none →
        AuthMW.authenticate validateJWT headers
          = { success := false, errMsg := some "Missing or invalid Authorization header" })
    ∧ AuthMW.extractBearerToken [("authorization", "bearer tok")] = none := by
  refine ⟨?_, ?_, ?_, by decide⟩
  · intro headers validateJWT h1 h2
    have he : AuthMW.extractBearerToken headers = none := by
      simp [AuthMW.extractBearerToken, AuthMW.jsOrString, h1, h2]
    exact ⟨he, by simp [AuthMW.authenticate, he]⟩
  · intro ws c cs hws0 hwsall hws hdot
    have hfind : AuthMW.lookupHeader
        [("authorization",
          String.mk ('B' :: 'e' :: 'a' :: 'r' :: 'e' :: 'r' :: (ws ++ c :: cs)))]
        "authorization"
        = some (String.mk ('B' :: 'e' :: 'a' :: 'r' :: 'e' :: 'r' :: (ws ++ c :: cs))) := by
      simp [AuthMW.lookupHeader]
    have hmk : String.mk ('B' :: 'e' :: 'a' :: 'r' :: 'e' :: 'r' :: (ws ++ c :: cs)) ≠ "" := by
      intro h
      have := congrArg String.data h
      simp at this
    simp only [AuthMW.extractBearerToken, AuthMW.jsOrString, hfind, if_neg hmk]
    obtain ⟨k, hk⟩ : ∃ k, ws.length = k + 1 := by
      cases ws with
      | nil => exact absurd rfl hws0
      | cons a l => exact ⟨l.length, rfl⟩
    have hdrop : (ws ++ c :: cs).drop (k + 1) = c :: cs := by
      rw [← hk, List.drop_left]
    have hmatch : AuthMW.bearerRegexMatch
        ('B' :: 'e' :: 'a' :: 'r' :: 'e' :: 'r' :: (ws ++ c :: cs)) = some (c :: cs) := by
      show AuthMW.tryWs (ws ++ c :: cs) ((ws ++ c :: cs).takeWhile AuthMW.isJsWs).length
        = some (c :: cs)
      rw [AuthMW.takeWhile_ws_append c cs hws ws hwsall, hk]
      simp [AuthMW.tryWs, hdrop, hdot]
    rw [hmatch]
    rfl
  · intro headers validateJWT h
    simp [AuthMW.authenticate, h]

/-- C7 witness: the amended extraction behaviour exercised concretely — a
header map with no authorization key is denied with the fixed reason, and
`Bearer` followed by a two-space whitespace run under the lowercase
spelling extracts `tok`. -/
theorem c7_bearer_extraction_witness :
    (AuthMW.extractBearerToken [("x-foo", "1")] = none
      ∧ AuthMW.authenticate (fun _ => .ok ()) [("x-foo", "1")]
        = { success := false, errMsg := some "Missing or invalid Authorization header" })
    ∧ AuthMW.extractBearerToken
        [("authorization",
          String.mk ('B' :: 'e' :: 'a' :: 'r' :: 'e' :: 'r' :: ([' ', ' '] ++ 't' :: ['o', 'k'])))]
      = some (String.mk ('t' :: ['o', 'k'])) :=
  ⟨c7_bearer_extraction.1 [("x-foo", "1")] (fun _ => .ok ()) (by decide) (by decide),
    c7_bearer_extraction.2.1 [' ', ' '] 't' ['o', 'k'] (by decide) (by decide)
      (by decide) (by decide)⟩

namespace OAuthClient

/-- Length of the unpadded base64 sextet stream: 4 sextets per full 3-byte
group, plus 2 or 3 for a trailing 1- or 2-byte group. -/
theorem b64Sextets_length : ∀ (bs : List Nat),
    (b64Sextets bs).length
      = 4 * (bs.length / 3)
        + (if bs.length % 3 = 0 then 0 else if bs.length % 3 = 1 then 2 else 3)
  | [] => by simp [b64Sextets]
  | [b1] => by simp [b64Sextets]
  | [b1, b2] => by simp [b64Sextets]
  | b1 :: b2 :: b3 :: rest => by
    have ih := b64Sextets_length rest
    simp only [b64Sextets, List.length_cons, ih]
    have hmod : (rest.length + 1 + 1 + 1) % 3 = rest.length % 3 := by omega
    have hdiv : (rest.length + 1 + 1 + 1) / 3 = rest.length / 3 + 1 := by omega
    simp only [hmod, hdiv]
    by_cases h0 : rest.length % 3 = 0 <;> by_cases h1 : rest.length % 3 = 1 <;>
      simp [h0, h1] <;> omega

/-- Each sextet of a byte list below 256 is below 64. -/
theorem b64Sextets_lt_64 : ∀ (bs : List Nat), (∀ b ∈ bs, b < 256) →
    ∀ s ∈ b64Sextets bs, s < 64
  | [], _ => by simp [b64Sextets]
  | [b1], h => by
    have hb1 : b1 < 256 := h b1 (by simp)
    intro s hs
    simp only [b64Sextets, List.mem_cons, List.not_mem_nil, or_false] at hs
    rcases hs with rfl | rfl
    · omega
    · omega
  | [b1, b2], h => by
    have hb1 : b1 < 256 := h b1 (by simp)
    have hb2 : b2 < 256 := h b2 (by simp)
    intro s hs
    simp only [b64Sextets, List.mem_cons, List.not_mem_nil, or_false] at hs
    rcases hs with rfl | rfl | rfl
    · omega
    · omega
    · omega
  | b1 :: b2 :: b3 :: rest, h => by
    have hb1 : b1 < 256 := h b1 (by simp)
    have hb2 : b2 < 256 := h b2 (by simp)
    have hb3 : b3 < 256 := h b3 (by simp)
    have ih := b64Sextets_lt_64 rest (fun b hb => h b (by simp [hb]))
    intro s hs
    simp only [b64Sextets, List.mem_cons] at hs
    rcases hs with rfl | rfl | rfl | rfl | hs
    · omega
    · omega
    · omega
    · omega
    · exact ih s hs

/-- Decoding inverts encoding on byte lists below 256 — the sextet stream
determines the bytes. -/
theorem b64Unsextets_b64Sextets : ∀ (bs : List Nat), (∀ b ∈ bs, b < 256) →
    b64Unsextets (b64Sextets bs) = bs
  | [], _ => rfl
  | [b1], h => by
    have hb1 : b1 < 256 := h b1 (by simp)
    simp only [b64Sextets, b64Unsextets, List.cons.injEq, and_true]
    omega
  | [b1, b2], h => by
    have hb1 : b1 < 256 := h b1 (by simp)
    have hb2 : b2 < 256 := h b2 (by simp)
    simp only [b64Sextets, b64Unsextets, List.cons.injEq, and_true]
    constructor
    · omega
    · omega
  | b1 :: b2 :: b3 :: rest, h => by
    have hb1 : b1 < 256 := h b1 (by simp)
    have hb2 : b2 < 256 := h b2 (by simp)
    have hb3 : b3 < 256 := h b3 (by simp)
    have ih := b64Unsextets_b64Sextets rest (fun b hb => h b (by simp [hb]))
    simp only [b64Sextets, b64Unsextets, ih, List.cons.injEq, and_true]
    refine ⟨?_, ?_, ?_⟩ <;> omega

/-- `sextetCharInv` recovers each sextet value from its alphabet
character. -/
theorem sextetCharInv_sextetChar : ∀ n < 64, sextetCharInv (sextetChar n) = n := by
  decide

/-- The alphabet map is injective on sextet streams. -/
theorem map_sextetChar_inj : ∀ (xs ys : List Nat),
    (∀ x ∈ xs, x < 64) → (∀ y ∈ ys, y < 64) →
    xs.map sextetChar = ys.map sextetChar → xs = ys
  | [], [], _, _, _ => rfl
  | [], y :: ys, _, _, h => by simp at h
  | x :: xs, [], _, _, h => by simp at h
  | x :: xs, y :: ys, hx, hy, h => by
    simp only [List.map_cons, List.cons.injEq] at h
    have hxy : x = y := by
      have hc := congrArg sextetCharInv h.1
      rwa [sextetCharInv_sextetChar x (hx x (by simp)),
        sextetCharInv_sextetChar y (hy y (by simp))] at hc
    have ht := map_sextetChar_inj xs ys (fun a ha => hx a (by simp [ha]))
      (fun a ha => hy a (by simp [ha])) h.2
    simp [hxy, ht]

/-- `base64URLEncode` is injective on byte lists (below 256): distinct
random inputs yield distinct encodings. -/
theorem base64URLEncode_inj (bs1 bs2 : List Nat)
    (h1 : ∀ b ∈ bs1, b < 256) (h2 : ∀ b ∈ bs2, b < 256)
    (h : base64URLEncode bs1 = base64URLEncode bs2) : bs1 = bs2 := by
  have hs := map_sextetChar_inj (b64Sextets bs1) (b64Sextets bs2)
    (b64Sextets_lt_64 bs1 h1) (b64Sextets_lt_64 bs2 h2) h
  have hu := congrArg b64Unsextets hs
  rwa [b64Unsextets_b64Sextets bs1 h1, b64Unsextets_b64Sextets bs2 h2] at hu

end OAuthClient

/-- C9: `generatePKCE` on 32 verifier bytes and 16 state bytes succeeds
(the schema accepts it) and produces exactly: a verifier of length 43 — in
the required [43,128] band — as the base64url encoding of the 32 random
bytes; a challenge equal to `base64url(SHA256(verifier))` computed over
the verifier's exact ASCII bytes; method `S256`; and a state whose
encoding is injective in the random input, so distinct 16-byte draws give
distinct states. -/
theorem c9_generatePKCE_spec (sha256 : List Nat → List Nat)
    (rand32 rand16 : List Nat)
    (h32 : rand32.length = 32) (h16 : rand16.length = 16)
    (hsha : (sha256 ((OAuthClient.base64URLEncode rand32).map Char.toNat)).length = 32) :
    OAuthClient.generatePKCE sha256 rand32 rand16
      = some
        { code_verifier := OAuthClient.base64URLEncode rand32
          code_challenge := OAuthClient.base64URLEncode
            (sha256 ((OAuthClient.base64URLEncode rand32).map Char.toNat))
          code_challenge_method := "S256"
          state := OAuthClient.base64URLEncode rand16 }
    ∧ (OAuthClient.base64URLEncode rand32).length = 43
    ∧ 43 ≤ (OAuthClient.base64URLEncode rand32).length
    ∧ (OAuthClient.base64URLEncode rand32).length ≤ 128
    ∧ (∀ (rand16' : List Nat),
        (∀ b ∈ rand16, b < 256) → (∀ b ∈ rand16', b < 256) →
        rand16 ≠ rand16' →
        OAuthClient.base64URLEncode rand16 ≠ OAuthClient.base64URLEncode rand16') := by
  have hv : (OAuthClient.base64URLEncode rand32).length = 43 := by
    rw [OAuthClient.base64URLEncode, List.length_map, OAuthClient.b64Sextets_length, h32]
    decide
  have hc : (OAuthClient.base64URLEncode
      (sha256 ((OAuthClient.base64URLEncode rand32).map Char.toNat))).length = 43 := by
    rw [OAuthClient.base64URLEncode, List.length_map, OAuthClient.b64Sextets_length, hsha]
    decide
  have hst : (OAuthClient.base64URLEncode rand16).length = 22 := by
    rw [OAuthClient.base64URLEncode, List.length_map, OAuthClient.b64Sextets_length, h16]
    decide
  refine ⟨?_, hv, by omega, by omega, ?_⟩
  · simp [OAuthClient.generatePKCE, OAuthClient.pkceSchemaParse, hv, hc, hst]
  · intro rand16' hb hb' hne heq
    exact hne (OAuthClient.base64URLEncode_inj rand16 rand16' hb hb' heq)

/-- C9 witness: PKCE generation exercised at concrete random inputs — the
schema accepts, the verifier length is 43, and two distinct 16-byte state
draws produce distinct states. -/
theorem c9_generatePKCE_spec_witness :
    OAuthClient.generatePKCE (fun _ => List.range 32) (List.range 32)
        (List.replicate 16 0)
      = some
        { code_verifier := OAuthClient.base64URLEncode (List.range 32)
          code_challenge := OAuthClient.base64URLEncode (List.range 32)
          code_challenge_method := "S256"
          state := OAuthClient.base64URLEncode (List.replicate 16 0) }
    ∧ (OAuthClient.base64URLEncode (List.range 32)).length = 43
    ∧ OAuthClient.base64URLEncode (List.replicate 16 0)
      ≠ OAuthClient.base64URLEncode (1 :: List.replicate 15 0) := by
  have h := c9_generatePKCE_spec (fun _ => List.range 32) (List.range 32)
    (List.replicate 16 0) (by decide) (by decide) (by decide)
  exact ⟨h.1, h.2.1,
    h.2.2.2.2 (1 :: List.replicate 15 0) (by decide) (by decide) (by decide)⟩
